import Mathlib

/-!
Shallow embedding of the sharded on-device test-execution layer of the
repository: the work partitioner `LocalDeviceGtestRun._CreateShards` and test
enumeration `_GetTests` (build/android/pylib/local/device/local_device_gtest_run.py),
the device pool `LocalDeviceEnvironment` (local_device_environment.py), and the
buildbot sharding driver (src/build/android/bb_run_sharded_steps.py).
-/

namespace OpenFrame

/-! ### Work partitioner (`_CreateShards`) -/

/-- Helper for the Python extended slice `l[i::N]`: `takeEveryAux N l c` skips
`c` elements, takes the next one, then repeats with gap `N`. -/
def takeEveryAux (N : Nat) : List α → Nat → List α
  | [], _ => []
  | x :: xs, 0 => x :: takeEveryAux N xs (N - 1)
  | _ :: xs, c + 1 => takeEveryAux N xs c

/-- Elements of `l` at indices `0, N, 2*N, …`. -/
def takeEvery (N : Nat) (l : List α) : List α := takeEveryAux N l 0

/-- Python extended slice `l[i::N]` (step `N ≥ 1`): elements at indices
`i, i+N, i+2N, …`.  In `_CreateShards` this is `tests[i::device_count]`. -/
def sliceFrom (l : List α) (i N : Nat) : List α := takeEvery N (l.drop i)

/-- Fuel-driven chunking; the fuel is an upper bound on the list length, so the
recursion is structural and kernel-computable. -/
def chunksFuel (M : Nat) : Nat → List α → List (List α)
  | _, [] => []
  | 0, l => [l]
  | fuel + 1, x :: xs => (x :: xs.take (M - 1)) :: chunksFuel M fuel (xs.drop (M - 1))

/-- `[l[j:j+M] for j in xrange(0, len(l), M)]` for `M ≥ 1`: split `l` into
consecutive chunks of size `M` (the last one possibly shorter). -/
def chunks (M : Nat) (l : List α) : List (List α) := chunksFuel M l.length l

/-- `_MAX_SHARD_SIZE` from local_device_gtest_run.py. -/
def MAX_SHARD_SIZE : Nat := 256

/-- `_CreateShards`, parametrized by the shard-size bound `M`:
for each worker index `i < deviceCount`, `unbounded_shard = tests[i::device_count]`,
then `shards += [unbounded_shard[j:j+M] for j in xrange(0, len(unbounded_shard), M)]`. -/
def createShardsWith (M : Nat) (tests : List α) (deviceCount : Nat) : List (List α) :=
  (List.range deviceCount).foldl
    (fun shards i => shards ++ chunks M (sliceFrom tests i deviceCount)) []

/-- `LocalDeviceGtestRun._CreateShards` with the source's fixed bound of 256. -/
def CreateShards (tests : List α) (deviceCount : Nat) : List (List α) :=
  createShardsWith MAX_SHARD_SIZE tests deviceCount

/-- `_GetTests`: `list(sorted(set().union(*[set(tl) for tl in test_lists if tl])))`
— union of the per-device test lists (skipping falsy ones), de-duplicated and
sorted.  Tests are modelled as naturals. -/
def GetTests (test_lists : List (Option (List Nat))) : List Nat :=
  ((test_lists.filterMap id).flatten.toFinset).sort (· ≤ ·)

/-- Device assignment performed by `_RunShardedSteps` in bb_run_sharded_steps.py:
`shard_size = (len(steps) + num_devices - 1) / num_devices`, and device `i`
receives `steps.keys()[i * shard_size:(i + 1) * shard_size]`.  `keys` is the
Python dict iteration order of the manifest, which is *not* the sorted order:
the script computes `step_names = sorted(steps.keys())` but never uses it. -/
def runShardedStepsAssignment (keys : List String) (devices : List String) :
    List (List String) :=
  let numDevices := devices.length
  let shardSize := (keys.length + numDevices - 1) / numDevices
  (List.range numDevices).map fun i => (keys.drop (i * shardSize)).take shardSize

/-! ### Per-device SetUp steps (`LocalDeviceGtestRun.SetUp`) -/

/-- Per-device state touched by `individual_device_set_up`: the installed test
APK, the pushed data-dependency files, and the started test servers.  The three
setup callables each write one of these components (the external device effects
of `devil` are modelled as these fields). -/
structure GtestDeviceState where
  installedApk : Option String
  pushedFiles : List (String × String)
  servers : List Nat
deriving DecidableEq

/-- Static configuration read (not written) by the setup steps: the APK to
install, the host/device data-dependency tuples, whether the suite is in
`_SUITE_REQUIRES_TEST_SERVER_SPAWNER`, and the allocated spawner port. -/
structure GtestSetUpConfig where
  apk : String
  dataDeps : List (String × String)
  requiresSpawner : Bool
  spawnerPort : Nat

/-- `install_apk`: installs the delegate's APK on the device. -/
def install_apk (cfg : GtestSetUpConfig) (s : GtestDeviceState) : GtestDeviceState :=
  { s with installedApk := some cfg.apk }

/-- `push_test_data`: `dev.PushChangedFiles(host_device_tuples)`. -/
def push_test_data (cfg : GtestSetUpConfig) (s : GtestDeviceState) : GtestDeviceState :=
  { s with pushedFiles := cfg.dataDeps }

/-- `init_tool_and_start_servers`: sets `self._servers[str(dev)]`, appending a
spawner when the suite requires a test server, and starts them. -/
def init_tool_and_start_servers (cfg : GtestSetUpConfig) (s : GtestDeviceState) :
    GtestDeviceState :=
  { s with servers := if cfg.requiresSpawner then [cfg.spawnerPort] else [] }

/-- `steps = (install_apk, push_test_data, init_tool_and_start_servers)`. -/
def setUpSteps (cfg : GtestSetUpConfig) : List (GtestDeviceState → GtestDeviceState) :=
  [install_apk cfg, push_test_data cfg, init_tool_and_start_servers cfg]

/-- Running a list of step callables in a given order (the sequential branch
runs them in list order; `reraiser_thread.RunAsync` is modelled as executing
the same callables in an arbitrary interleaving order, i.e. any permutation of
the list). -/
def runSteps (steps : List (GtestDeviceState → GtestDeviceState))
    (s : GtestDeviceState) : GtestDeviceState :=
  steps.foldl (fun st f => f st) s

/-! ### Device pool (`LocalDeviceEnvironment`) -/

/-- A worker device; `str(d)` and `d.adb.GetDeviceSerial()` are its serial. -/
structure Device where
  serial : String
deriving DecidableEq

/-- Errors raised by `LocalDeviceEnvironment.SetUp` (from
`devil.android.device_errors`). -/
inductive SetUpError where
  | NoDevicesError : SetUpError
  | DeviceUnreachableError : String → SetUpError
deriving DecidableEq

/-- `LocalDeviceEnvironment.SetUp`: `available_devices` is the result of
`DeviceUtils.HealthyDevices(self._blacklist)` (healthy devices remaining after
the blacklist is applied — external `devil` code, taken as input).  Raises
`NoDevicesError` when it is empty; when a specific serial is requested, keeps
only the matching devices and raises `DeviceUnreachableError` when none match;
otherwise the live set is the available list. -/
def EnvSetUp (available_devices : List Device) (device_serial : Option String) :
    Except SetUpError (List Device) :=
  if available_devices = [] then .error .NoDevicesError
  else
    match device_serial with
    | some s =>
        let ds := available_devices.filter fun d => d.serial == s
        if ds = [] then .error (.DeviceUnreachableError s) else .ok ds
    | none => .ok available_devices

/-- The state of a `LocalDeviceEnvironment`: the (optionally configured)
persisted blacklist of (serial, reason) entries, and the live device set. -/
structure LocalDeviceEnv where
  blacklist : Option (List (String × String))
  devices : List Device

/-- Modelled from the spec: `devil.android.device_blacklist.Blacklist.Extend`
(the persisted blacklist store) is an external collaborator, not under src/.
Per the spec, `blacklist(worker, reason)` "appends to the persisted blacklist". -/
def blacklistExtend (bl : List (String × String)) (serials : List String)
    (reason : String) : List (String × String) :=
  bl ++ serials.map fun s => (s, reason)

/-- `LocalDeviceEnvironment.BlacklistDevice`: with no blacklist store this only
logs a warning; otherwise it extends the persisted blacklist with the device's
serial and removes every device with that serial from the live set. -/
def BlacklistDevice (env : LocalDeviceEnv) (device : Device) (reason : String) :
    LocalDeviceEnv :=
  match env.blacklist with
  | none => env
  | some bl =>
      { blacklist := some (blacklistExtend bl [device.serial] reason)
        devices := env.devices.filter fun d => d.serial != device.serial }

/-! ### Buildbot sharding driver (`bb_run_sharded_steps.py`) -/

/-- Outcome of `pexpect.run(cmd, withexitstatus=True)`: the captured command
output and the exit status, which is `None` when the process terminated without
reporting one (e.g. killed by a signal). -/
structure CmdOutcome where
  output : String
  exitstatus : Option Nat

/-- One entry of the `steps_per_device` lists built in `_RunShardedSteps`. -/
structure StepSpec where
  name : String
  cmd : String
  device : String
  is_flaky : Bool

/-- A result record as built by `_RunStepsPerDevice` and pickled by
`_SaveResult` under the step's name (the wall-clock `total_time` field is
omitted from the model). -/
structure StepResult where
  name : String
  output : String
  exit_code : Nat
  device : String
deriving DecidableEq

/-- One iteration of the loop in `_RunStepsPerDevice`: run the command, coerce
a missing exit status to 0 (`exit_code = exit_code or 0`), print the `Finished`
line whose `exit_msg` carries the `(ignored, flaky step)` annotation for flaky
steps, zero the exit code of flaky steps, and build the result record.  Returns
the result together with the printed `Finished` line (the line's wall-clock
timestamp is omitted). -/
def runStep (run : String → CmdOutcome) (step : StepSpec) : StepResult × String :=
  let o := run step.cmd
  let code0 := o.exitstatus.getD 0
  let exit_msg :=
    toString code0 ++ " " ++ (if step.is_flaky then "(ignored, flaky step)" else "")
  let line := "Finished " ++ step.name ++ ": " ++ exit_msg ++ " " ++ step.cmd
      ++ " at " ++ step.device
  let exit_code := if step.is_flaky then 0 else code0
  ({ name := step.name, output := o.output, exit_code := exit_code,
     device := step.device }, line)

/-- `_RunStepsPerDevice`: run each step of one device's list in order,
collecting the result records that `_SaveResult` persists. -/
def RunStepsPerDevice (run : String → CmdOutcome) (steps : List StepSpec) :
    List StepResult :=
  steps.map fun st => (runStep run st).1

/-- `_PrintStepOutput`: look the step's pickled result up in the store; when
the file is missing, print `File not found` and return 1, otherwise print the
recorded output and return its exit code.  Returns (status, printed lines). -/
def PrintStepOutput (store : String → Option StepResult) (step_name : String) :
    Nat × List String :=
  match store step_name with
  | none => (1, ["File not found " ++ step_name])
  | some r => (r.exit_code, [r.output])

/-- `_PrintAllStepsOutput`: `ret = 0; for step_name in steps.keys(): ret |=
_PrintStepOutput(step_name)`, printing as it goes. -/
def PrintAllStepsOutput (store : String → Option StepResult) (names : List String) :
    Nat × List String :=
  names.foldl
    (fun acc n =>
      let r := PrintStepOutput store n
      (acc.1 ||| r.1, acc.2 ++ r.2))
    (0, [])

/-- Structural recursion equivalent of `PrintAllStepsOutput` (the loop's `|=`
accumulation is associative with identity 0). -/
def printAllRec (store : String → Option StepResult) : List String → Nat × List String
  | [] => (0, [])
  | n :: ns =>
      let r := PrintStepOutput store n
      let rest := printAllRec store ns
      (r.1 ||| rest.1, r.2 ++ rest.2)

/-- The `steps_per_device` list that `_RunShardedSteps` builds for device
number `i`: the slice `steps.keys()[i*shard_size:(i+1)*shard_size]` of the
manifest's key order, each key paired with its command plus the `--device` and
`--keep_test_server_ports` arguments, and flagged flaky when listed in the
flaky-step manifest. -/
def stepsForDevice (steps : List (String × String)) (flaky : List String)
    (shardSize : Nat) (i : Nat) (device : String) : List StepSpec :=
  (((steps.map Prod.fst).drop (i * shardSize)).take shardSize).map fun s =>
    { name := s
      device := device
      is_flaky := flaky.contains s
      cmd := ((steps.lookup s).getD "") ++ " --device " ++ device
        ++ " --keep_test_server_ports" }

/-- `_RunShardedSteps` after its asserts and the store clearing: distribute the
manifest keys over the devices in contiguous slices of size
`(len(steps) + num_devices - 1) / num_devices`, run each device's list, and
return exit code 0 ("No exit_code for the sharding step") with the recorded
results. -/
def RunShardedSteps (steps : List (String × String)) (flaky : List String)
    (devices : List String) (run : String → CmdOutcome) : Nat × List StepResult :=
  let numDevices := devices.length
  let shardSize := (steps.length + numDevices - 1) / numDevices
  let all_params := devices.enum.map fun p => stepsForDevice steps flaky shardSize p.1 p.2
  (0, (all_params.map (RunStepsPerDevice run)).flatten)

/-- Outcome of one `run` invocation of the driver: the process exit code
(`none` models an uncaught exception, e.g. a failed `assert`), whether the
result-store directory was deleted and recreated, and the recorded results. -/
structure RunOutcome where
  exit_code : Option Nat
  storeCleared : Bool
  recorded : List StepResult
deriving DecidableEq

/-- The `run` path of `main`: sort the attached devices, abort with exit code 1
(store untouched) when none is attached, fail the `assert steps` of
`_RunShardedSteps` on an empty manifest (store untouched, since the asserts
precede the `rmtree`), and otherwise clear/recreate the result store and run
all sharded steps, returning `_RunShardedSteps`'s exit code 0. -/
def bbMain (attached : List String) (steps : List (String × String))
    (flaky : List String) (run : String → CmdOutcome) : RunOutcome :=
  let devices := attached.mergeSort fun a b => decide (a ≤ b)
  if devices = [] then ⟨some 1, false, []⟩
  else if steps = [] then ⟨none, false, []⟩
  else
    let r := RunShardedSteps steps flaky devices run
    ⟨some r.1, true, r.2⟩

/-- A small concrete result store used to exercise the print-all path: a
passing step, a failing step, and nothing else recorded. -/
def demoStore : String → Option StepResult := fun n =>
  if n = "good" then some ⟨"good", "ok", 0, "dev"⟩
  else if n = "bad" then some ⟨"bad", "boom", 2, "dev"⟩
  else none

/-! ## Theorems -/

theorem takeEveryAux_eq (N : Nat) : ∀ (l : List α) (c : Nat),
    takeEveryAux N l c = takeEvery N (l.drop c)
  | [], c => by simp [takeEveryAux, takeEvery]
  | _ :: _, 0 => by rw [List.drop_zero]; rfl
  | x :: xs, c + 1 => by
      rw [takeEveryAux, List.drop_succ_cons, takeEveryAux_eq N xs c]

theorem takeEvery_cons (N : Nat) (x : α) (xs : List α) :
    takeEvery N (x :: xs) = x :: takeEvery N (xs.drop (N - 1)) := by
  rw [takeEvery, takeEveryAux, takeEveryAux_eq]

theorem flatMap_sliceFrom_perm (M : Nat) (l : List α) :
    ((List.range (M + 1)).flatMap fun i => sliceFrom l i (M + 1)).Perm l := by
  induction l with
  | nil => simp [sliceFrom, takeEvery, takeEveryAux]
  | cons x xs ih =>
      rw [List.range_succ_eq_map, List.flatMap_cons, List.flatMap_map]
      have h0 : sliceFrom (x :: xs) 0 (M + 1) = x :: sliceFrom xs M (M + 1) := by
        simp [sliceFrom, takeEvery_cons]
      have h1 : ∀ a : Nat, sliceFrom (x :: xs) (a + 1) (M + 1) = sliceFrom xs a (M + 1) := by
        intro a
        simp [sliceFrom, List.drop_succ_cons]
      simp only [Nat.succ_eq_add_one, h1, h0, List.cons_append]
      apply List.Perm.cons
      have ih2 := ih
      rw [List.range_succ, List.flatMap_append] at ih2
      simp only [List.flatMap_cons, List.flatMap_nil, List.append_nil] at ih2
      exact List.perm_append_comm.trans ih2

theorem chunksFuel_flatten (M : Nat) : ∀ (fuel : Nat) (l : List α),
    l.length ≤ fuel → (chunksFuel M fuel l).flatten = l
  | fuel, [], _ => by cases fuel <;> simp [chunksFuel]
  | 0, x :: xs, h => absurd h (by simp)
  | fuel + 1, x :: xs, h => by
      rw [chunksFuel, List.flatten_cons,
        chunksFuel_flatten M fuel (xs.drop (M - 1))
          (by
            have hx : xs.length ≤ fuel := by simpa using h
            simp only [List.length_drop]
            omega)]
      simp [List.take_append_drop]

theorem chunks_flatten (M : Nat) (l : List α) : (chunks M l).flatten = l :=
  chunksFuel_flatten M l.length l le_rfl

theorem chunksFuel_length_le (M : Nat) (hM : 1 ≤ M) : ∀ (fuel : Nat) (l : List α),
    l.length ≤ fuel → ∀ c ∈ chunksFuel M fuel l, c.length ≤ M
  | fuel, [], _ => by cases fuel <;> simp [chunksFuel]
  | 0, x :: xs, h => absurd h (by simp)
  | fuel + 1, x :: xs, h => by
      rw [chunksFuel]
      intro c hc
      rcases List.mem_cons.mp hc with rfl | hc
      · have := List.length_take (M - 1) xs
        simp only [List.length_cons, this]
        omega
      · exact chunksFuel_length_le M hM fuel (xs.drop (M - 1))
          (by
            have hx : xs.length ≤ fuel := by simpa using h
            simp only [List.length_drop]
            omega) c hc

theorem chunks_length_le (M : Nat) (hM : 1 ≤ M) (l : List α) :
    ∀ c ∈ chunks M l, c.length ≤ M :=
  chunksFuel_length_le M hM l.length l le_rfl

theorem foldl_append_eq_flatMap (f : β → List γ) : ∀ (l : List β) (acc : List γ),
    l.foldl (fun a b => a ++ f b) acc = acc ++ l.flatMap f
  | [], acc => by simp
  | b :: t, acc => by
      simp [List.foldl_cons, foldl_append_eq_flatMap f t, List.flatMap_cons]

theorem createShardsWith_eq (M : Nat) (tests : List α) (N : Nat) :
    createShardsWith M tests N
      = (List.range N).flatMap fun i => chunks M (sliceFrom tests i N) := by
  rw [createShardsWith, foldl_append_eq_flatMap]
  simp

theorem flatten_flatMap (f : β → List (List γ)) : ∀ (l : List β),
    (l.flatMap f).flatten = l.flatMap fun b => (f b).flatten
  | [] => by simp
  | b :: t => by simp [List.flatMap_cons, List.flatten_append, flatten_flatMap f t]

/-- C1: for every task list and every worker count `N ≥ 1`, `_CreateShards`
produces shards whose task-multiset union is exactly the input list (no task
lost, none duplicated), and every shard has length at most
`MAX_SHARD_SIZE = 256`. -/
theorem CreateShards_partition (tests : List α) (N : Nat) (hN : 1 ≤ N) :
    ((CreateShards tests N).flatten).Perm tests ∧
    ∀ s ∈ CreateShards tests N, s.length ≤ MAX_SHARD_SIZE := by
  obtain ⟨M, rfl⟩ : ∃ M, N = M + 1 := ⟨N - 1, by omega⟩
  constructor
  · rw [CreateShards, createShardsWith_eq, flatten_flatMap]
    simp only [chunks_flatten]
    exact flatMap_sliceFrom_perm M tests
  · intro s hs
    rw [CreateShards, createShardsWith_eq, List.mem_flatMap] at hs
    obtain ⟨i, _, hsi⟩ := hs
    exact chunks_length_le MAX_SHARD_SIZE (by decide) _ s hsi

/-- Witness for C1 at the concrete input `[0,1,2,3,4]`, two workers. -/
theorem CreateShards_partition_witness :
    ((CreateShards [0, 1, 2, 3, 4] 2).flatten).Perm [0, 1, 2, 3, 4] ∧
    ∀ s ∈ CreateShards [0, 1, 2, 3, 4] 2, s.length ≤ MAX_SHARD_SIZE :=
  CreateShards_partition [0, 1, 2, 3, 4] 2 (by decide)

theorem getD_drop (l : List α) (n m : Nat) (d : α) :
    (l.drop n).getD m d = l.getD (n + m) d := by
  simp [List.getD_eq_getElem?_getD, List.getElem?_drop]

theorem takeEvery_getD (N : Nat) (hN : 1 ≤ N) (d : α) : ∀ (k : Nat) (l : List α),
    (takeEvery N l).getD k d = l.getD (k * N) d
  | 0, [] => by simp [takeEvery, takeEveryAux]
  | 0, _ :: _ => by rw [takeEvery_cons]; simp
  | k + 1, [] => by simp [takeEvery, takeEveryAux]
  | k + 1, x :: xs => by
      rw [takeEvery_cons, List.getD_cons_succ, takeEvery_getD N hN d k (xs.drop (N - 1)),
        getD_drop]
      have hx : (k + 1) * N = (N - 1 + k * N) + 1 := by
        rw [Nat.succ_mul]
        generalize k * N = t
        omega
      rw [hx, List.getD_cons_succ]

/-- C2: `_CreateShards` assigns the task at flat index `j` to worker `j mod N`
(the task shows up at position `j / N` of that worker's slice), chunks each
worker's slice in order (concatenating a worker's chunks gives back its slice
unchanged), and on 5 tasks, 2 workers, shard bound 3, worker 0 gets the single
shard `[0, 2, 4]` of flat indices and worker 1 the single shard `[1, 3]`. -/
theorem CreateShards_roundRobin :
    (∀ (α : Type) (l : List α) (N : Nat), 1 ≤ N → ∀ (j : Nat) (d : α),
        (sliceFrom l (j % N) N).getD (j / N) d = l.getD j d) ∧
    (∀ (α : Type) (M : Nat) (l : List α) (N i : Nat),
        (chunks M (sliceFrom l i N)).flatten = sliceFrom l i N) ∧
    createShardsWith 3 ([0, 1, 2, 3, 4] : List Nat) 2 = [[0, 2, 4], [1, 3]] := by
  refine ⟨?_, ?_, by decide⟩
  · intro α l N hN j d
    rw [sliceFrom, takeEvery_getD N hN d, getD_drop, Nat.mod_add_div']
  · intro α M l N i
    exact chunks_flatten M _

/-- Witness for C2: flat index 2, two workers — the task lands in worker 0's
slice at position 1. -/
theorem CreateShards_roundRobin_witness :
    (sliceFrom ([10, 20, 30] : List Nat) (2 % 2) 2).getD (2 / 2) 0
      = ([10, 20, 30] : List Nat).getD 2 0 :=
  CreateShards_roundRobin.1 Nat [10, 20, 30] 2 (by decide) 2 0

/-- C3 (code bug): `_RunShardedSteps` computes `step_names = sorted(steps.keys())`
but distributes the *unsorted* `steps.keys()` across devices, so the shard
assignment depends on the dict iteration order of the manifest, not only on its
task set: the two iteration orders `["b","a"]` and `["a","b"]` of the same
two-task manifest give different per-device assignments. -/
theorem runShardedSteps_unsorted_distribution :
    (["b", "a"] : List String).Perm ["a", "b"] ∧
    runShardedStepsAssignment ["b", "a"] ["d0", "d1"] = [["b"], ["a"]] ∧
    runShardedStepsAssignment ["a", "b"] ["d0", "d1"] = [["a"], ["b"]] ∧
    runShardedStepsAssignment ["b", "a"] ["d0", "d1"]
      ≠ runShardedStepsAssignment ["a", "b"] ["d0", "d1"] := by
  refine ⟨by decide, by decide, by decide, by decide⟩

/-- The gtest-runner side (`_GetTests`) does sort and de-duplicate before
distribution: its output is sorted, has no duplicates, and is a function of the
task *set* only. -/
theorem GetTests_sorted_nodup (tls : List (Option (List Nat))) :
    (GetTests tls).Sorted (· ≤ ·) ∧ (GetTests tls).Nodup ∧
    ∀ tls₂, (tls.filterMap id).flatten.toFinset = (tls₂.filterMap id).flatten.toFinset →
      GetTests tls = GetTests tls₂ := by
  refine ⟨Finset.sort_sorted _ _, Finset.sort_nodup _ _, fun tls₂ h => ?_⟩
  rw [GetTests, GetTests, h]

/-- C4: running the per-device setup callables concurrently
(`reraiser_thread.RunAsync`, modelled as execution in an arbitrary order) and
sequentially (in list order) yields the same final device state from every
input state: each of the three steps writes a different component of the
state, so every interleaving agrees with the sequential run. -/
theorem setUp_concurrent_eq_sequential (cfg : GtestSetUpConfig)
    (order : List (GtestDeviceState → GtestDeviceState))
    (h : order.Perm (setUpSteps cfg)) (s : GtestDeviceState) :
    runSteps order s = runSteps (setUpSteps cfg) s := by
  unfold runSteps
  refine h.foldl_eq' ?_ s
  intro x hx y hy z
  have hx2 : x ∈ setUpSteps cfg := (h.mem_iff).mp hx
  have hy2 : y ∈ setUpSteps cfg := (h.mem_iff).mp hy
  simp only [setUpSteps, List.mem_cons, List.not_mem_nil, or_false] at hx2 hy2
  rcases hx2 with rfl | rfl | rfl <;> rcases hy2 with rfl | rfl | rfl <;> rfl

/-- C5: when a blacklist store is configured, `BlacklistDevice` appends the
device's serial (with the reason) to the persisted blacklist and removes the
device from the live set; no device with that serial remains live afterwards,
so the blacklisted worker cannot be selected for new work until cleared. -/
theorem BlacklistDevice_spec (env : LocalDeviceEnv) (dev : Device) (reason : String)
    (bl : List (String × String)) (hbl : env.blacklist = some bl)
    (_hdev : dev ∈ env.devices) :
    (BlacklistDevice env dev reason).blacklist = some (bl ++ [(dev.serial, reason)]) ∧
    dev ∉ (BlacklistDevice env dev reason).devices ∧
    ∀ d ∈ (BlacklistDevice env dev reason).devices, d.serial ≠ dev.serial := by
  rw [BlacklistDevice, hbl]
  refine ⟨by simp [blacklistExtend], ?_, ?_⟩
  · intro hmem
    have := (List.mem_filter.mp hmem).2
    simp at this
  · intro d hd
    have := (List.mem_filter.mp hd).2
    simpa using this

/-- Witness for C5: blacklisting the live device `s1` of a two-device pool. -/
theorem BlacklistDevice_spec_witness :
    (BlacklistDevice ⟨some [], [⟨"s1"⟩, ⟨"s2"⟩]⟩ ⟨"s1"⟩ "rsn").blacklist
        = some ([] ++ [("s1", "rsn")]) ∧
    (⟨"s1"⟩ : Device) ∉ (BlacklistDevice ⟨some [], [⟨"s1"⟩, ⟨"s2"⟩]⟩ ⟨"s1"⟩ "rsn").devices ∧
    ∀ d ∈ (BlacklistDevice ⟨some [], [⟨"s1"⟩, ⟨"s2"⟩]⟩ ⟨"s1"⟩ "rsn").devices,
      d.serial ≠ (⟨"s1"⟩ : Device).serial :=
  BlacklistDevice_spec ⟨some [], [⟨"s1"⟩, ⟨"s2"⟩]⟩ ⟨"s1"⟩ "rsn" [] rfl (by decide)

/-- C7: `SetUp` raises `NoDevicesError` exactly when no healthy device remains
after the blacklist; with a requested serial (and a nonempty healthy set) it
raises `DeviceUnreachableError` exactly when no healthy device has that serial;
otherwise the live set is the healthy set, resp. its matching devices. -/
theorem EnvSetUp_spec (avail : List Device) (sOpt : Option String) :
    (EnvSetUp avail sOpt = .error .NoDevicesError ↔ avail = []) ∧
    (∀ s, sOpt = some s →
      (EnvSetUp avail sOpt = .error (.DeviceUnreachableError s)
        ↔ avail ≠ [] ∧ ∀ d ∈ avail, d.serial ≠ s)) ∧
    (sOpt = none → avail ≠ [] → EnvSetUp avail sOpt = .ok avail) ∧
    (∀ s, sOpt = some s → avail ≠ [] → (∃ d ∈ avail, d.serial = s) →
      EnvSetUp avail sOpt = .ok (avail.filter fun d => d.serial == s)) := by
  by_cases hav : avail = []
  · subst hav
    rcases sOpt with _ | s <;>
      simp [EnvSetUp]
  · rcases sOpt with _ | s
    · simp [EnvSetUp, hav]
    · by_cases hf : avail.filter (fun d => d.serial == s) = []
      · have hall : ∀ d ∈ avail, d.serial ≠ s := by
          intro d hd
          have := List.filter_eq_nil_iff.mp hf d hd
          simpa using this
        refine ⟨by simp [EnvSetUp, hav, hf], ?_, by simp, ?_⟩
        · intro s2 hs2
          cases hs2
          simp only [EnvSetUp, hav, if_false, hf, if_true]
          simp [hav]
          exact hall
        · intro s2 hs2 _ hex
          cases hs2
          obtain ⟨d, hd, hds⟩ := hex
          exact absurd hds (hall d hd)
      · refine ⟨by simp [EnvSetUp, hav, hf], ?_, by simp, ?_⟩
        · intro s2 hs2
          cases hs2
          simp only [EnvSetUp, hav, if_false, hf]
          constructor
          · intro h
            simp at h
          · rintro ⟨-, hall⟩
            exfalso
            apply hf
            rw [List.filter_eq_nil_iff]
            intro d hd
            simpa using hall d hd
        · intro s2 hs2 _ _
          cases hs2
          simp [EnvSetUp, hav, hf]

/-- Witness for C7: a pool with only device `a` and a request for serial `b`
fails with `DeviceUnreachableError "b"`. -/
theorem EnvSetUp_spec_witness :
    EnvSetUp [⟨"a"⟩] (some "b") = .error (.DeviceUnreachableError "b") :=
  ((EnvSetUp_spec [⟨"a"⟩] (some "b")).2.1 "b" rfl).mpr ⟨by decide, by decide⟩

/-- Witness for C4: the order `[push, install, init]` (one possible concurrent
interleaving) produces the same state as the sequential order. -/
theorem setUp_concurrent_eq_sequential_witness :
    runSteps [push_test_data ⟨"t.apk", [("host", "dev")], true, 31000⟩,
        install_apk ⟨"t.apk", [("host", "dev")], true, 31000⟩,
        init_tool_and_start_servers ⟨"t.apk", [("host", "dev")], true, 31000⟩]
      ⟨none, [], []⟩
      = runSteps (setUpSteps ⟨"t.apk", [("host", "dev")], true, 31000⟩) ⟨none, [], []⟩ :=
  setUp_concurrent_eq_sequential ⟨"t.apk", [("host", "dev")], true, 31000⟩ _
    (List.Perm.swap (install_apk ⟨"t.apk", [("host", "dev")], true, 31000⟩)
      (push_test_data ⟨"t.apk", [("host", "dev")], true, 31000⟩)
      [init_tool_and_start_servers ⟨"t.apk", [("host", "dev")], true, 31000⟩])
    ⟨none, [], []⟩


/-- C6 counterexample: for the flaky step "foo" whose command exits with
code 1, the recorded result has exit code 0 but its stored output is exactly
the command's captured output; the "(ignored, flaky" annotation is not a
substring of it (the annotation is only printed to the console). -/
theorem flaky_marker_absent_from_recorded_output :
    (runStep (fun _ => ⟨"test output", some 1⟩)
        ⟨"foo", "cmd_foo", "dev0", true⟩).1.exit_code = 0 ∧
    (runStep (fun _ => ⟨"test output", some 1⟩)
        ⟨"foo", "cmd_foo", "dev0", true⟩).1.output = "test output" ∧
    ¬ ("(ignored, flaky".data
        <:+: (runStep (fun _ => ⟨"test output", some 1⟩)
            ⟨"foo", "cmd_foo", "dev0", true⟩).1.output.data) :=
  ⟨rfl, rfl, by decide⟩

/-- C6 amended: for every flaky step, the recorded result's exit code is 0 and
its stored output is the command's captured output unchanged; the
"(ignored, flaky step)" annotation appears in the `Finished` console line
printed when the step completes. -/
theorem flaky_step_recorded (run : String → CmdOutcome) (step : StepSpec)
    (hf : step.is_flaky = true) :
    (runStep run step).1.exit_code = 0 ∧
    ("(ignored, flaky step)".data <:+: ((runStep run step).2).data) ∧
    (runStep run step).1.output = (run step.cmd).output := by
  refine ⟨by simp [runStep, hf], ?_, by simp [runStep]⟩
  refine ⟨("Finished " ++ step.name ++ ": "
      ++ toString ((run step.cmd).exitstatus.getD 0) ++ " ").data,
    (" " ++ step.cmd ++ " at " ++ step.device).data, ?_⟩
  simp [runStep, hf, String.data_append, List.append_assoc]

/-- Witness for C6 (amended) at a concrete flaky step exiting 1. -/
theorem flaky_step_recorded_witness :
    (runStep (fun _ => ⟨"test output", some 1⟩)
        ⟨"foo2", "cmd2", "dev0", true⟩).1.exit_code = 0 ∧
    ("(ignored, flaky step)".data
      <:+: ((runStep (fun _ => ⟨"test output", some 1⟩)
          ⟨"foo2", "cmd2", "dev0", true⟩).2).data) ∧
    (runStep (fun _ => ⟨"test output", some 1⟩)
        ⟨"foo2", "cmd2", "dev0", true⟩).1.output
      = ((fun _ => (⟨"test output", some 1⟩ : CmdOutcome)) "cmd2").output :=
  flaky_step_recorded (fun _ => ⟨"test output", some 1⟩) ⟨"foo2", "cmd2", "dev0", true⟩ rfl

/-- C10: when the execution library reports no exit status (`exitstatus` is
`None`), `exit_code = exit_code or 0` records the step with exit code 0, i.e.
as passing — whether or not the step is flaky. -/
theorem missing_exitstatus_recorded_as_zero (run : String → CmdOutcome)
    (step : StepSpec) (h : (run step.cmd).exitstatus = none) :
    (runStep run step).1.exit_code = 0 := by
  cases hf : step.is_flaky <;> simp [runStep, h, hf]

/-- Witness for C10: a non-flaky step whose process died without a status. -/
theorem missing_exitstatus_recorded_as_zero_witness :
    (runStep (fun _ => ⟨"killed by signal", none⟩)
        ⟨"s1", "c1", "d1", false⟩).1.exit_code = 0 :=
  missing_exitstatus_recorded_as_zero (fun _ => ⟨"killed by signal", none⟩)
    ⟨"s1", "c1", "d1", false⟩ rfl

theorem lor_eq_zero_iff (a b : Nat) : a ||| b = 0 ↔ a = 0 ∧ b = 0 := by
  constructor
  · intro h
    constructor
    · by_contra ha
      obtain ⟨i, hi⟩ := Nat.exists_most_significant_bit ha
      have := Nat.testBit_lor a b i
      rw [h] at this
      simp [hi.1] at this
    · by_contra hb
      obtain ⟨i, hi⟩ := Nat.exists_most_significant_bit hb
      have := Nat.testBit_lor a b i
      rw [h] at this
      simp [hi.1] at this
  · rintro ⟨rfl, rfl⟩
    rfl

theorem printAll_foldl_aux (store : String → Option StepResult) :
    ∀ (ns : List String) (a : Nat) (ls : List String),
      ns.foldl
          (fun acc n =>
            let r := PrintStepOutput store n
            (acc.1 ||| r.1, acc.2 ++ r.2))
          (a, ls)
        = (a ||| (printAllRec store ns).1, ls ++ (printAllRec store ns).2)
  | [], a, ls => by simp [printAllRec]
  | n :: ns, a, ls => by
      rw [List.foldl_cons]
      rw [printAll_foldl_aux store ns]
      simp [printAllRec, Nat.lor_assoc, List.append_assoc]

theorem printAll_eq_rec (store : String → Option StepResult) (ns : List String) :
    PrintAllStepsOutput store ns = printAllRec store ns := by
  rw [PrintAllStepsOutput, printAll_foldl_aux]
  simp

/-- C8: `_PrintAllStepsOutput` prints the recorded output of every named step
that has a result, prints a `File not found` line (and forces a non-zero
aggregate) for every named step without one while still printing all the
others, and its aggregate status is zero exactly when every named step has a
recorded, passing result. -/
theorem PrintAllSteps_spec (store : String → Option StepResult) (names : List String) :
    (∀ n ∈ names, ∀ r, store n = some r →
      r.output ∈ (PrintAllStepsOutput store names).2) ∧
    (∀ n ∈ names, store n = none →
      ("File not found " ++ n) ∈ (PrintAllStepsOutput store names).2) ∧
    ((PrintAllStepsOutput store names).1 = 0
      ↔ ∀ n ∈ names, ∃ r, store n = some r ∧ r.exit_code = 0) := by
  rw [printAll_eq_rec]
  induction names with
  | nil => simp [printAllRec]
  | cons n ns ih =>
      obtain ⟨ih1, ih2, ih3⟩ := ih
      refine ⟨?_, ?_, ?_⟩
      · intro m hm r hr
        simp only [printAllRec]
        rw [List.mem_append]
        rcases List.mem_cons.mp hm with rfl | hm2
        · left
          simp [PrintStepOutput, hr]
        · right
          exact ih1 m hm2 r hr
      · intro m hm hr
        simp only [printAllRec]
        rw [List.mem_append]
        rcases List.mem_cons.mp hm with rfl | hm2
        · left
          simp [PrintStepOutput, hr]
        · right
          exact ih2 m hm2 hr
      · simp only [printAllRec]
        rw [lor_eq_zero_iff, ih3]
        constructor
        · rintro ⟨h1, h2⟩ m hm
          rcases List.mem_cons.mp hm with rfl | hm2
          · cases hsm : store m with
            | none =>
                rw [PrintStepOutput, hsm] at h1
                simp at h1
            | some r =>
                refine ⟨r, rfl, ?_⟩
                rw [PrintStepOutput, hsm] at h1
                exact h1
          · exact h2 m hm2
        · intro h
          constructor
          · obtain ⟨r, hr, hc⟩ := h n (List.mem_cons_self n ns)
            rw [PrintStepOutput, hr]
            exact hc
          · intro m hm
            exact h m (List.mem_cons_of_mem n hm)

/-- Witness for C8: the manifest names a never-recorded step `missing`; its
not-found line is printed and the aggregate status is non-zero. -/
theorem PrintAllSteps_spec_witness :
    ("File not found " ++ "missing")
      ∈ (PrintAllStepsOutput demoStore ["good", "bad", "missing"]).2 ∧
    (PrintAllStepsOutput demoStore ["good", "bad", "missing"]).1 ≠ 0 := by
  have h := PrintAllSteps_spec demoStore ["good", "bad", "missing"]
  refine ⟨h.2.1 "missing" (by simp) (by decide), fun h0 => ?_⟩
  obtain ⟨r, hr, -⟩ := (h.2.2.mp h0) "missing" (by simp)
  simp [demoStore] at hr

/-- C9: with at least one attached worker and a nonempty manifest, the `run`
invocation exits 0 no matter what the individual commands return, after
clearing and recreating the result store; with zero attached workers it aborts
with exit code 1 before touching the result store and records nothing. -/
theorem bbMain_exit (attached : List String) (steps : List (String × String))
    (flaky : List String) (run : String → CmdOutcome) :
    (attached ≠ [] → steps ≠ [] →
      (bbMain attached steps flaky run).exit_code = some 0 ∧
      (bbMain attached steps flaky run).storeCleared = true) ∧
    (attached = [] →
      bbMain attached steps flaky run = ⟨some 1, false, []⟩) := by
  have hsort : (attached.mergeSort fun a b => decide (a ≤ b)) = [] ↔ attached = [] := by
    constructor
    · intro h
      have hlen : (attached.mergeSort fun a b => decide (a ≤ b)).length = attached.length :=
        List.length_mergeSort attached
      rw [h] at hlen
      exact List.length_eq_zero.mp hlen.symm
    · rintro rfl
      exact List.mergeSort_nil
  constructor
  · intro ha hs
    have hd : ¬ (attached.mergeSort fun a b => decide (a ≤ b)) = [] :=
      fun h => ha (hsort.mp h)
    simp only [bbMain, if_neg hd, if_neg hs]
    constructor <;> trivial
  · rintro rfl
    simp [bbMain]

/-- Witness for C9: one device and a one-step manifest whose command fails
(exit 1) still gives process exit 0 with the store cleared, while zero devices
give exit 1 with the store untouched. -/
theorem bbMain_exit_witness :
    (bbMain ["d0"] [("stepA", "cmdA")] [] (fun _ => ⟨"boom", some 1⟩)).exit_code
        = some 0 ∧
    (bbMain ["d0"] [("stepA", "cmdA")] [] (fun _ => ⟨"boom", some 1⟩)).storeCleared
        = true ∧
    bbMain [] [("stepA", "cmdA")] [] (fun _ => ⟨"boom", some 1⟩) = ⟨some 1, false, []⟩ := by
  have h1 := (bbMain_exit ["d0"] [("stepA", "cmdA")] [] (fun _ => ⟨"boom", some 1⟩)).1
    (by simp) (by simp)
  exact ⟨h1.1, h1.2,
    (bbMain_exit [] [("stepA", "cmdA")] [] (fun _ => ⟨"boom", some 1⟩)).2 rfl⟩


end OpenFrame
